import Mathlib

/-!
Verification of the question-text parser and quiz session state machine of
`main.py` (a Flask quiz application).  Strings are modelled as `List Char`
(ASCII behaviour of Python `str` methods); the parser `parse_questions` and
the session-mutating route handlers `start_quiz`, `question` (POST branch)
and `summary` are embedded as pure Lean functions.
-/

namespace Quiz

/-- Strings, modelled as lists of characters. -/
abbrev Str := List Char

/-- Python `str.strip()` whitespace set (ASCII): space, tab, newline,
carriage return, vertical tab, form feed. -/
def isSpace (c : Char) : Bool :=
  c = ' ' || c = '\t' || c = '\n' || c = '\r' || c = '\x0b' || c = '\x0c'

/-- Python `s.strip()`: remove leading and trailing whitespace. -/
def strip (l : Str) : Str :=
  ((l.dropWhile isSpace).reverse.dropWhile isSpace).reverse

/-- Suffix of `l` after the first occurrence of `pat`, or `none` when `pat`
does not occur.  Models the combination of Python `pat in text` and
`text.split(pat, 1)[1]` used in `parse_questions`. -/
def afterFirst (pat : Str) : Str → Option Str
  | [] => none
  | c :: rest =>
    if pat.isPrefixOf (c :: rest) then some (List.drop pat.length (c :: rest))
    else afterFirst pat rest

/-- The start marker `'---START'`. -/
def startMarker : Str := ['-', '-', '-', 'S', 'T', 'A', 'R', 'T']

/-- Characters matched by the class `[:.\s]` of the block-splitting and
question-number regexes. -/
def numDelim (c : Char) : Bool := c = ':' || c = '.' || isSpace c

/-- The lookahead `(?=\s*\d+[:.\s])` of the block-splitting regex
`\n(?=\s*\d+[:.\s])`: optional whitespace, at least one digit, then a colon,
period or whitespace character.  (Maximal munch is exact here because the
three character classes are pairwise disjoint on their boundaries.) -/
def numLookahead (l : Str) : Bool :=
  match l.dropWhile isSpace with
  | [] => false
  | c :: cs =>
    c.isDigit &&
      (match (c :: cs).dropWhile Char.isDigit with
       | [] => false
       | d :: _ => numDelim d)

/-- Accumulator-passing scanner for `re.split(r'\n(?=\s*\d+[:.\s])', s)`:
cut at each newline whose right context matches the lookahead, consuming the
newline. -/
def splitBlocksAux : Str → Str → List Str
  | acc, [] => [acc.reverse]
  | acc, c :: rest =>
    if c = '\n' && numLookahead rest then
      acc.reverse :: splitBlocksAux [] rest
    else
      splitBlocksAux (c :: acc) rest

/-- `re.split(r'\n(?=\s*\d+[:.\s])', content_block)`. -/
def splitBlocks (l : Str) : List Str := splitBlocksAux [] l

/-- `re.split(r'^\s*\d+[:.\s]+', q_text_line, 1)[-1]`: strip a leading
question number (optional whitespace, digits, one or more of `[:.\s]`) when
present, otherwise return the line unchanged. -/
def stripLeadingNum (l : Str) : Str :=
  match l.dropWhile isSpace with
  | [] => l
  | c :: cs =>
    if c.isDigit then
      match (c :: cs).dropWhile Char.isDigit with
      | [] => l
      | d :: ds => if numDelim d then (d :: ds).dropWhile numDelim else l
    else l

/-- The literal `'answer:'`. -/
def ansMarker : Str := ['a', 'n', 's', 'w', 'e', 'r', ':']

/-- The literal `'description:'`. -/
def descMarker : Str := ['d', 'e', 's', 'c', 'r', 'i', 'p', 't', 'i', 'o', 'n', ':']

/-- `line.lower().startswith('answer:')`. -/
def isAnsLine (l : Str) : Bool := ansMarker.isPrefixOf (l.map Char.toLower)

/-- `line.lower().startswith('description:')`. -/
def isDescLine (l : Str) : Bool := descMarker.isPrefixOf (l.map Char.toLower)

/-- `re.match(r'^[a-zA-Z]\)', line)`: a letter followed by a closing
parenthesis. -/
def isOptLine (l : Str) : Bool :=
  match l with
  | c :: d :: _ => c.isAlpha && d == ')'
  | _ => false

/-- `line.split(':', 1)[1]`: everything after the first colon (empty when no
colon is present; callers guard on a prefix that contains one). -/
def afterColon (l : Str) : Str := (l.dropWhile (fun c => !(c == ':'))).tail

/-- `line.split(':', 1)[1].strip().upper()` for an `answer:` line. -/
def ansValue (l : Str) : Str := (strip (afterColon l)).map Char.toUpper

/-- `line.split(':', 1)[1].strip()` for a `description:` line. -/
def descValue (l : Str) : Str := strip (afterColon l)

/-- `re.sub(r'^[a-zA-Z]\)\s*', '', line).strip()` for an option line. -/
def optValue (l : Str) : Str := strip ((l.drop 2).dropWhile isSpace)

/-- The mutable locals `options`, `correct_answer`, `description` of the
per-block loop of `parse_questions`. -/
structure Acc where
  options : List Str
  correct : Str
  description : Str
deriving DecidableEq, Repr

/-- One iteration of the line-classification loop of `parse_questions`:
`answer:` lines set `correct_answer`, `description:` lines set
`description`, option-marker lines append to `options`, anything else is
ignored. -/
def step (a : Acc) (line : Str) : Acc :=
  if isAnsLine line then { a with correct := ansValue line }
  else if isDescLine line then { a with description := descValue line }
  else if isOptLine line then { a with options := a.options ++ [optValue line] }
  else a

/-- The whole classification loop, starting from empty locals. -/
def classifyFold (lines : List Str) : Acc := List.foldl step ⟨[], [], []⟩ lines

/-- `[line.strip() for line in block.strip().split('\n') if line.strip()]`. -/
def blockLines (block : Str) : List Str :=
  (((strip block).splitOn '\n').map strip).filter (fun l => !l.isEmpty)

/-- A parsed question record, as appended to `questions` by
`parse_questions`. -/
structure Question where
  question : Str
  options : List Str
  correct : Str
  description : Str
deriving DecidableEq, Repr

/-- The per-block body of `parse_questions`, applied to the prepared
non-empty stripped lines: pop the first line as the question text (with any
leading number stripped), classify the rest, and validate
`q_text and len(options) >= 4 and correct_answer and description`,
truncating `options` to the first 4 entries. -/
def parseBlockLines : List Str → Option Question
  | [] => none
  | qline :: rest =>
    let q_text := strip (stripLeadingNum qline)
    let a := classifyFold rest
    if q_text ≠ [] ∧ 4 ≤ a.options.length ∧ a.correct ≠ [] ∧ a.description ≠ [] then
      some ⟨q_text, a.options.take 4, a.correct, a.description⟩
    else none

/-- Processing of one block of `parse_questions`. -/
def parseBlock (block : Str) : Option Question := parseBlockLines (blockLines block)

/-- `parse_questions(text)`: return `[]` when the text is empty or lacks the
`---START` marker; otherwise split the text after the marker into blocks and
keep every block that yields a record. -/
def parse_questions (text : Str) : List Question :=
  if text = [] then []
  else
    match afterFirst startMarker text with
    | none => []
    | some content_block => (splitBlocks content_block).filterMap parseBlock

/-- `parse_questions` applied to a possibly absent document text: Python
`parse_questions(None)` takes the `if not text` branch and returns `[]`. -/
def parse_questions_opt : Option Str → List Question
  | none => []
  | some t => parse_questions t

/-- `'---START' in text`. -/
def hasStart (t : Str) : Bool := (afterFirst startMarker t).isSome

/-- The values of the option lines among `lines`, in encounter order. -/
def optionValues (lines : List Str) : List Str := (lines.filter isOptLine).map optValue

/-- The value carried by the last `answer:` line of `lines`, or the empty
string when there is none. -/
def lastAnsValue (lines : List Str) : Str :=
  ((lines.filter isAnsLine).map ansValue).getLastD []

/-- The value carried by the last `description:` line of `lines`, or the
empty string when there is none. -/
def lastDescValue (lines : List Str) : Str :=
  ((lines.filter isDescLine).map descValue).getLastD []

/-! ### Quiz session state machine -/

/-- An entry of the `incorrect` list built by `summary`. -/
structure IncorrectEntry where
  index : Nat
  question : Str
  options : List Str
  correct : Str
  user : Str
  description : Str
deriving DecidableEq, Repr

/-- The session fields touched by the quiz routes.  `quiz_indices`,
`answers` and `current` model the keys of the same names; `start_time`
models both the presence and the value of the `start_time` key (absent =
`none`); `incorrect` models the cached review list.  `answers` is the
Python dict keyed by `str(step)`, modelled as an association list with the
stored value `none` when the form supplied no `answer` field. -/
structure QuizSession where
  quiz_indices : List Nat
  answers : List (Nat × Option Str)
  current : Nat
  start_time : Option Nat
  incorrect : Option (List IncorrectEntry)
deriving DecidableEq, Repr

/-- Python dict assignment `d[k] = v`: overwrite the entry for `k` when
present, otherwise append a new entry. -/
def dictInsert : List (Nat × Option Str) → Nat → Option Str → List (Nat × Option Str)
  | [], k, v => [(k, v)]
  | p :: rest, k, v => if p.1 = k then (k, v) :: rest else p :: dictInsert rest k v

/-- Python `answers.get(str(i))`: `None` both when the key is absent and
when the stored value is itself `None`. -/
def lookupAns (d : List (Nat × Option Str)) (k : Nat) : Option Str :=
  match d.lookup k with
  | none => none
  | some v => v

/-- The session mutation of `start_quiz` on a non-empty bank: shuffle the
bank indices (the shuffled permutation `perm` is passed in as the result of
`random.shuffle`), keep the first `numQuestions`, reset `answers` and
`current`, and set `start_time`.  The `incorrect` key is left untouched.
In the source `numQuestions` is the constant `NUM_QUESTIONS = 15`. -/
def start_quiz (numQuestions : Nat) (perm : List Nat) (now : Nat) (s : QuizSession) :
    QuizSession :=
  { s with quiz_indices := perm.take numQuestions, answers := [], current := 0,
           start_time := some now }

/-- `NUM_QUESTIONS = 15`. -/
def NUM_QUESTIONS : Nat := 15

/-- The session mutation of a POST to `/question`: if the session has no
`start_time` (or no quiz) redirect without change; if `current` is past the
end redirect to the summary without change; otherwise store the submitted
label (possibly absent) under the current step and, unless the action is
`'end'`, advance `current` by one. -/
def question_post (s : QuizSession) (ans : Option Str) (actionEnd : Bool) : QuizSession :=
  if s.start_time = none then s
  else if s.quiz_indices.length ≤ s.current then s
  else
    let s1 := { s with answers := dictInsert s.answers s.current ans }
    if actionEnd then s1 else { s1 with current := s.current + 1 }

/-- A question record with all fields empty; stands for the out-of-bounds
fetch `ALL_QUESTIONS_CACHE[question_index]` which valid sessions never
perform. -/
def defaultQ : Question := ⟨[], [], [], []⟩

/-- `user_ans or 'Not Answered'`: the substitution applied when building an
`incorrect` entry (Python falsiness: `None` or the empty string). -/
def userOr (a : Option Str) : Str :=
  match a with
  | none => "Not Answered".toList
  | some v => if v = [] then "Not Answered".toList else v

/-- The scoring loop of `summary`: over `enumerate(quiz_indices)`, count a
step as correct when the stored answer equals the record's correct label,
and otherwise append an `incorrect` entry. -/
def summaryScan (bank : List Question) (answers : List (Nat × Option Str))
    (quiz_indices : List Nat) : Nat × List IncorrectEntry :=
  quiz_indices.enum.foldl
    (fun acc p =>
      let q := bank.getD p.2 defaultQ
      let user_ans := lookupAns answers p.1
      if user_ans = some q.correct then (acc.1 + 1, acc.2)
      else (acc.1, acc.2 ++
        [⟨p.1 + 1, q.question, q.options, q.correct, userOr user_ans, q.description⟩]))
    (0, [])

/-- The values rendered by the summary page. -/
structure SummaryOut where
  correct_count : Nat
  total : Nat
  percent : ℚ
  incorrect : List IncorrectEntry
deriving DecidableEq, Repr

/-- The `/summary` route body: pop `start_time`, run the scoring loop over
the unchanged `quiz_indices` and `answers`, compute the guarded percentage
`correct_count / total * 100` (0 when `total == 0`), and cache the
`incorrect` list on the session. -/
def summary (bank : List Question) (s : QuizSession) : QuizSession × SummaryOut :=
  let s1 := { s with start_time := none }
  let r := summaryScan bank s1.answers s1.quiz_indices
  let total : Nat := s1.quiz_indices.length
  let pct : ℚ := if 0 < total then (r.1 : ℚ) / (total : ℚ) * 100 else 0
  ({ s1 with incorrect := some r.2 }, ⟨r.1, total, pct, r.2⟩)

/-! ### Line classification: the three prefix classes are mutually exclusive -/

theorem second_of_ansLine {c d : Char} {t : Str} (h : isAnsLine (c :: d :: t) = true) :
    Char.toLower d = 'n' := by
  simp only [isAnsLine, ansMarker, List.map, List.isPrefixOf, Bool.and_eq_true,
    beq_iff_eq] at h
  exact h.2.1.symm

theorem second_of_descLine {c d : Char} {t : Str} (h : isDescLine (c :: d :: t) = true) :
    Char.toLower d = 'e' := by
  simp only [isDescLine, descMarker, List.map, List.isPrefixOf, Bool.and_eq_true,
    beq_iff_eq] at h
  exact h.2.1.symm

theorem first_of_ansLine {c : Char} {t : Str} (h : isAnsLine (c :: t) = true) :
    Char.toLower c = 'a' := by
  simp only [isAnsLine, ansMarker, List.map, List.isPrefixOf, Bool.and_eq_true,
    beq_iff_eq] at h
  exact h.1.symm

theorem first_of_descLine {c : Char} {t : Str} (h : isDescLine (c :: t) = true) :
    Char.toLower c = 'd' := by
  simp only [isDescLine, descMarker, List.map, List.isPrefixOf, Bool.and_eq_true,
    beq_iff_eq] at h
  exact h.1.symm

theorem not_opt_of_ans {l : Str} (h : isAnsLine l = true) : isOptLine l = false := by
  match l with
  | [] => rfl
  | [c] => rfl
  | c :: d :: t =>
    have hd := second_of_ansLine h
    cases hb : (d == ')') with
    | false => simp [isOptLine, hb]
    | true =>
      have hd2 : d = ')' := by simpa using hb
      rw [hd2] at hd
      exact absurd hd (by decide)

theorem not_opt_of_desc {l : Str} (h : isDescLine l = true) : isOptLine l = false := by
  match l with
  | [] => rfl
  | [c] => rfl
  | c :: d :: t =>
    have hd := second_of_descLine h
    cases hb : (d == ')') with
    | false => simp [isOptLine, hb]
    | true =>
      have hd2 : d = ')' := by simpa using hb
      rw [hd2] at hd
      exact absurd hd (by decide)

theorem not_desc_of_ans {l : Str} (h : isAnsLine l = true) : isDescLine l = false := by
  match l with
  | [] => exact absurd h (by decide)
  | c :: t =>
    cases hD : isDescLine (c :: t) with
    | false => rfl
    | true =>
      have h1 := first_of_ansLine h
      have h2 := first_of_descLine hD
      rw [h1] at h2
      exact absurd h2 (by decide)

/-! ### Characterisation of the classification loop -/

theorem step_of_ans (a : Acc) (l : Str) (h : isAnsLine l = true) :
    step a l = { a with correct := ansValue l } := by
  simp [step, h]

theorem step_of_desc (a : Acc) (l : Str) (hA : isAnsLine l = false)
    (hD : isDescLine l = true) :
    step a l = { a with description := descValue l } := by
  simp [step, hA, hD]

theorem step_of_opt (a : Acc) (l : Str) (hA : isAnsLine l = false)
    (hD : isDescLine l = false) (hO : isOptLine l = true) :
    step a l = { a with options := a.options ++ [optValue l] } := by
  simp [step, hA, hD, hO]

theorem step_of_other (a : Acc) (l : Str) (hA : isAnsLine l = false)
    (hD : isDescLine l = false) (hO : isOptLine l = false) :
    step a l = a := by
  simp [step, hA, hD, hO]

theorem foldl_step_options (lines : List Str) (a : Acc) :
    (List.foldl step a lines).options = a.options ++ optionValues lines := by
  induction lines generalizing a with
  | nil => simp [optionValues]
  | cons l ls ih =>
    rw [List.foldl_cons]
    cases hA : isAnsLine l with
    | true =>
      rw [step_of_ans a l hA, ih]
      simp [optionValues, List.filter_cons, not_opt_of_ans hA]
    | false =>
      cases hD : isDescLine l with
      | true =>
        rw [step_of_desc a l hA hD, ih]
        simp [optionValues, List.filter_cons, not_opt_of_desc hD]
      | false =>
        cases hO : isOptLine l with
        | true =>
          rw [step_of_opt a l hA hD hO, ih]
          simp [optionValues, List.filter_cons, hO]
        | false =>
          rw [step_of_other a l hA hD hO, ih]
          simp [optionValues, List.filter_cons, hO]

theorem foldl_step_correct (lines : List Str) (a : Acc) :
    (List.foldl step a lines).correct
      = ((lines.filter isAnsLine).map ansValue).getLastD a.correct := by
  induction lines generalizing a with
  | nil => simp
  | cons l ls ih =>
    rw [List.foldl_cons]
    cases hA : isAnsLine l with
    | true =>
      rw [step_of_ans a l hA, ih, List.filter_cons_of_pos hA, List.map_cons,
        List.getLastD_cons]
    | false =>
      cases hD : isDescLine l with
      | true =>
        rw [step_of_desc a l hA hD, ih, List.filter_cons_of_neg (by simp [hA])]
      | false =>
        cases hO : isOptLine l with
        | true =>
          rw [step_of_opt a l hA hD hO, ih]
          simp [List.filter_cons, hA]
        | false =>
          rw [step_of_other a l hA hD hO, ih]
          simp [List.filter_cons, hA]

theorem foldl_step_description (lines : List Str) (a : Acc) :
    (List.foldl step a lines).description
      = ((lines.filter isDescLine).map descValue).getLastD a.description := by
  induction lines generalizing a with
  | nil => simp
  | cons l ls ih =>
    rw [List.foldl_cons]
    cases hA : isAnsLine l with
    | true =>
      rw [step_of_ans a l hA, ih]
      simp [List.filter_cons, not_desc_of_ans hA]
    | false =>
      cases hD : isDescLine l with
      | true =>
        rw [step_of_desc a l hA hD, ih, List.filter_cons_of_pos hD, List.map_cons,
          List.getLastD_cons]
      | false =>
        cases hO : isOptLine l with
        | true =>
          rw [step_of_opt a l hA hD hO, ih]
          simp [List.filter_cons, hD]
        | false =>
          rw [step_of_other a l hA hD hO, ih]
          simp [List.filter_cons, hD]

theorem classifyFold_options (lines : List Str) :
    (classifyFold lines).options = optionValues lines := by
  unfold classifyFold
  rw [foldl_step_options]
  simp

theorem classifyFold_correct (lines : List Str) :
    (classifyFold lines).correct = lastAnsValue lines := by
  unfold classifyFold lastAnsValue
  rw [foldl_step_correct]

theorem classifyFold_description (lines : List Str) :
    (classifyFold lines).description = lastDescValue lines := by
  unfold classifyFold lastDescValue
  rw [foldl_step_description]

/-- Closed form of the per-block body on prepared lines. -/
theorem parseBlockLines_cons (qline : Str) (rest : List Str) :
    parseBlockLines (qline :: rest)
      = if strip (stripLeadingNum qline) ≠ [] ∧ 4 ≤ (optionValues rest).length
            ∧ lastAnsValue rest ≠ [] ∧ lastDescValue rest ≠ []
        then some ⟨strip (stripLeadingNum qline), (optionValues rest).take 4,
                   lastAnsValue rest, lastDescValue rest⟩
        else none := by
  simp only [parseBlockLines, classifyFold_options, classifyFold_correct,
    classifyFold_description]

theorem afterFirst_ne_nil {pat t c : Str} (h : afterFirst pat t = some c) : t ≠ [] := by
  intro ht
  subst ht
  simp [afterFirst] at h

/-- When the marker occurs, `parse_questions` is the per-block filter-map
over the blocks of the text after the marker. -/
theorem parse_questions_of_some {text c : Str} (h : afterFirst startMarker text = some c) :
    parse_questions text = (splitBlocks c).filterMap parseBlock := by
  have ht : text ≠ [] := afterFirst_ne_nil h
  simp [parse_questions, ht, h]

theorem lookup_dictInsert (d : List (Nat × Option Str)) (k : Nat) (v : Option Str) :
    (dictInsert d k v).lookup k = some v := by
  induction d with
  | nil => simp [dictInsert, List.lookup]
  | cons p rest ih =>
    by_cases h : p.1 = k
    · simp [dictInsert, h, List.lookup]
    · have h2 : (k == p.1) = false := by
        simp only [beq_eq_false_iff_ne, ne_eq]
        exact fun hk => h hk.symm
      simp [dictInsert, h, List.lookup, h2, ih]

/-! ### The claims -/

/-- C1: a block whose prepared lines have a non-empty prompt, at least four
option lines, a (last) non-empty `answer:` value and a (last) non-empty
`description:` value always yields a record, and the record's `options` are
exactly the first four option-line values in encounter order — in
particular a block with more than four option lines is truncated to a
record with exactly four options. -/
theorem c1_enough_options_yields_truncated_record (block qline : Str) (rest : List Str)
    (hb : blockLines block = qline :: rest)
    (hq : strip (stripLeadingNum qline) ≠ [])
    (h4 : 4 ≤ (optionValues rest).length)
    (ha : lastAnsValue rest ≠ []) (hd : lastDescValue rest ≠ []) :
    parseBlock block
      = some ⟨strip (stripLeadingNum qline), (optionValues rest).take 4,
              lastAnsValue rest, lastDescValue rest⟩
    ∧ ((optionValues rest).take 4).length = 4 := by
  constructor
  · rw [parseBlock, hb, parseBlockLines_cons, if_pos ⟨hq, h4, ha, hd⟩]
  · rw [List.length_take]
    omega

theorem c1_witness :
    parseBlock ("1: Q?\nA) 1\nB) 2\nC) 3\nD) 4\nE) 5\nAnswer: A\nDescription: d".toList)
      = some ⟨"Q?".toList, [['1'], ['2'], ['3'], ['4']], ['A'], ['d']⟩ := by
  have h := c1_enough_options_yields_truncated_record
    ("1: Q?\nA) 1\nB) 2\nC) 3\nD) 4\nE) 5\nAnswer: A\nDescription: d".toList)
    ("1: Q?".toList)
    ["A) 1".toList, "B) 2".toList, "C) 3".toList, "D) 4".toList, "E) 5".toList,
      "Answer: A".toList, "Description: d".toList]
    (by decide) (by decide) (by decide) (by decide) (by decide)
  rw [h.1]
  decide

/-- C2: a block with fewer than four option lines, or with no line
beginning with `answer:`, or with no line beginning with `description:`,
contributes no record; every block of the same text whose parse succeeds
still contributes its record to `parse_questions` (and `parse_questions`
is a total function of the input string, so it raises on no input). -/
theorem c2_malformed_dropped_wellformed_kept :
    (∀ block : Str,
        ((optionValues (blockLines block).tail).length < 4
          ∨ (∀ l ∈ (blockLines block).tail, isAnsLine l = false)
          ∨ (∀ l ∈ (blockLines block).tail, isDescLine l = false)) →
        parseBlock block = none)
    ∧ (∀ text c block : Str, ∀ q : Question, afterFirst startMarker text = some c →
        block ∈ splitBlocks c → parseBlock block = some q →
        q ∈ parse_questions text) := by
  constructor
  · intro block hbad
    cases hbl : blockLines block with
    | nil => rw [parseBlock, hbl]; rfl
    | cons qline rest =>
      rw [hbl] at hbad
      rw [parseBlock, hbl, parseBlockLines_cons, if_neg]
      rintro ⟨hq, h4, ha, hd⟩
      rcases hbad with h | h | h
      · simp only [List.tail_cons] at h
        omega
      · apply ha
        unfold lastAnsValue
        rw [List.filter_eq_nil_iff.mpr (fun l hl => by simp [h l (by simpa using hl)])]
        rfl
      · apply hd
        unfold lastDescValue
        rw [List.filter_eq_nil_iff.mpr (fun l hl => by simp [h l (by simpa using hl)])]
        rfl
  · intro text c block q hmar hb hp
    rw [parse_questions_of_some hmar]
    exact List.mem_filterMap.mpr ⟨block, hb, hp⟩

theorem c2_witness :
    parseBlock ("1: Q?\nA) 1\nB) 2\nC) 3\nAnswer: A\nDescription: d".toList) = none
    ∧ (⟨"R?".toList, [['1'], ['2'], ['3'], ['4']], ['A'], ['d']⟩ : Question)
        ∈ parse_questions
            ("---START\n1: Q?\nA) 1\nB) 2\nC) 3\nAnswer: A\nDescription: d\n2: R?\na) 1\nb) 2\nc) 3\nd) 4\nAnswer: a\nDescription: d".toList) := by
  constructor
  · exact c2_malformed_dropped_wellformed_kept.1
      ("1: Q?\nA) 1\nB) 2\nC) 3\nAnswer: A\nDescription: d".toList)
      (Or.inl (by decide))
  · exact c2_malformed_dropped_wellformed_kept.2
      ("---START\n1: Q?\nA) 1\nB) 2\nC) 3\nAnswer: A\nDescription: d\n2: R?\na) 1\nb) 2\nc) 3\nd) 4\nAnswer: a\nDescription: d".toList)
      ("\n1: Q?\nA) 1\nB) 2\nC) 3\nAnswer: A\nDescription: d\n2: R?\na) 1\nb) 2\nc) 3\nd) 4\nAnswer: a\nDescription: d".toList)
      ("2: R?\na) 1\nb) 2\nc) 3\nd) 4\nAnswer: a\nDescription: d".toList)
      ⟨"R?".toList, [['1'], ['2'], ['3'], ['4']], ['A'], ['d']⟩
      (by decide) (by decide) (by decide)

/-- C3: the spec's worked example parses to exactly one record with the
stated fields. -/
theorem c3_example_parses :
    parse_questions
        ("---START\n1: What is 2+2?\nA) 3\nB) 4\nC) 5\nD) 6\nAnswer: B\nDescription: basic math".toList)
      = [⟨"What is 2+2?".toList, [['3'], ['4'], ['5'], ['6']], ['B'],
          "basic math".toList⟩] := by
  decide

/-- C4: an empty input, an absent input, and any input that does not
contain `---START` all yield the empty sequence. -/
theorem c4_no_marker_returns_empty :
    (∀ text : Str, hasStart text = false → parse_questions text = [])
    ∧ parse_questions [] = [] ∧ parse_questions_opt none = [] := by
  refine ⟨?_, rfl, rfl⟩
  intro text h
  unfold hasStart at h
  by_cases ht : text = []
  · simp [parse_questions, ht]
  · cases haf : afterFirst startMarker text with
    | none => simp [parse_questions, ht, haf]
    | some c => rw [haf] at h; simp at h

theorem c4_witness :
    hasStart ("no marker here".toList) = false
    ∧ parse_questions ("no marker here".toList) = [] :=
  ⟨by decide, c4_no_marker_returns_empty.1 ("no marker here".toList) (by decide)⟩

/-- C5: for a bank of size `K` and configured count `numQ`, a successful
start stores exactly `min numQ K` indices, pairwise distinct, each a valid
index into the bank, and resets `current` to 0 and `answers` to empty. -/
theorem c5_start_quiz_selection (K numQ : Nat) (perm : List Nat) (now : Nat)
    (s : QuizSession) (hK : 0 < K) (hperm : perm.Perm (List.range K)) :
    (start_quiz numQ perm now s).quiz_indices.length = min numQ K
    ∧ (start_quiz numQ perm now s).quiz_indices.Nodup
    ∧ (∀ i ∈ (start_quiz numQ perm now s).quiz_indices, i < K)
    ∧ (start_quiz numQ perm now s).current = 0
    ∧ (start_quiz numQ perm now s).answers = [] := by
  have hlen : perm.length = K := by rw [hperm.length_eq, List.length_range]
  refine ⟨?_, ?_, ?_, rfl, rfl⟩
  · show (perm.take numQ).length = min numQ K
    rw [List.length_take, hlen]
  · exact List.Nodup.sublist (List.take_sublist _ _)
      (hperm.nodup_iff.mpr (List.nodup_range K))
  · intro i hi
    exact List.mem_range.mp (hperm.mem_iff.mp (List.take_subset _ _ hi))

theorem c5_witness :
    (start_quiz NUM_QUESTIONS [2, 0, 1] 7 ⟨[], [], 0, none, none⟩).quiz_indices.length
        = min NUM_QUESTIONS 3
    ∧ (start_quiz NUM_QUESTIONS [2, 0, 1] 7 ⟨[], [], 0, none, none⟩).quiz_indices.Nodup
    ∧ (∀ i ∈ (start_quiz NUM_QUESTIONS [2, 0, 1] 7 ⟨[], [], 0, none, none⟩).quiz_indices,
        i < 3)
    ∧ (start_quiz NUM_QUESTIONS [2, 0, 1] 7 ⟨[], [], 0, none, none⟩).current = 0
    ∧ (start_quiz NUM_QUESTIONS [2, 0, 1] 7 ⟨[], [], 0, none, none⟩).answers = [] :=
  c5_start_quiz_selection 3 NUM_QUESTIONS [2, 0, 1] 7 ⟨[], [], 0, none, none⟩
    (by decide) (by decide)

/-- C6 counterexample: on an in-progress session, submitting with no label
stores the absent value `none` at the current step, not the literal string
`"Not Answered"` — refuting the claim that the session records that
literal. -/
theorem c6_counterexample :
    (question_post ⟨[0, 1, 2], [], 0, some 0, none⟩ none false).answers = [(0, none)]
    ∧ lookupAns (question_post ⟨[0, 1, 2], [], 0, some 0, none⟩ none false).answers 0
        ≠ some ("Not Answered".toList) := by
  decide

/-- C6 (amended): on an answer submission in the in-progress state where no
label is supplied, the session records the absent value (`None`) at the
current step; that value never compares equal to `some` label (so it never
matches a record's correct label at summary time), and the literal
`"Not Answered"` is only substituted for display by `userOr`. -/
theorem c6_absent_answer_stored_as_none (s : QuizSession) (b : Bool)
    (hst : s.start_time ≠ none) (hlt : s.current < s.quiz_indices.length) :
    lookupAns (question_post s none b).answers s.current = none
    ∧ (∀ lab : Str, lookupAns (question_post s none b).answers s.current ≠ some lab)
    ∧ userOr (lookupAns (question_post s none b).answers s.current)
        = "Not Answered".toList := by
  have hans : (question_post s none b).answers = dictInsert s.answers s.current none := by
    rw [question_post, if_neg hst, if_neg (by omega)]
    cases b
    · rfl
    · rfl
  have hl : lookupAns (dictInsert s.answers s.current none) s.current = none := by
    unfold lookupAns
    rw [lookup_dictInsert]
  refine ⟨by rw [hans, hl], ?_, by rw [hans, hl]; rfl⟩
  intro lab
  rw [hans, hl]
  simp

theorem c6_witness :
    lookupAns (question_post ⟨[5, 6], [(0, some ['A'])], 1, some 3, none⟩ none true).answers 1
      = none :=
  (c6_absent_answer_stored_as_none ⟨[5, 6], [(0, some ['A'])], 1, some 3, none⟩ true
    (by decide) (by decide)).1

/-- Closed form of the summary output. -/
theorem summary_out (bank : List Question) (s : QuizSession) :
    (summary bank s).2
      = ⟨(summaryScan bank s.answers s.quiz_indices).1, s.quiz_indices.length,
         (if 0 < s.quiz_indices.length
            then ((summaryScan bank s.answers s.quiz_indices).1 : ℚ)
                  / (s.quiz_indices.length : ℚ) * 100
            else 0),
         (summaryScan bank s.answers s.quiz_indices).2⟩ := rfl

/-- C7: `summary` computes the percentage as `correct_count / total * 100`
whenever `total` is positive, and yields exactly 0 when `total = 0`; the
division is guarded by the `total > 0` test, so it is never executed with a
zero denominator. -/
theorem c7_percent_guarded (bank : List Question) (s : QuizSession) :
    (0 < (summary bank s).2.total →
      (summary bank s).2.percent
        = ((summary bank s).2.correct_count : ℚ) / ((summary bank s).2.total : ℚ) * 100)
    ∧ ((summary bank s).2.total = 0 → (summary bank s).2.percent = 0) := by
  constructor
  · intro h
    simp only [summary_out] at h ⊢
    rw [if_pos h]
  · intro h
    simp only [summary_out] at h ⊢
    rw [if_neg (by omega)]

theorem c7_witness :
    (summary [] ⟨[], [], 0, none, none⟩).2.percent = 0
    ∧ (summary [⟨['q'], [['1']], ['A'], ['d']⟩]
          ⟨[0], [(0, some ['A'])], 1, none, none⟩).2.percent
        = ((summary [⟨['q'], [['1']], ['A'], ['d']⟩]
              ⟨[0], [(0, some ['A'])], 1, none, none⟩).2.correct_count : ℚ)
          / ((summary [⟨['q'], [['1']], ['A'], ['d']⟩]
              ⟨[0], [(0, some ['A'])], 1, none, none⟩).2.total : ℚ) * 100 :=
  ⟨(c7_percent_guarded [] ⟨[], [], 0, none, none⟩).2 (by rfl),
   (c7_percent_guarded [⟨['q'], [['1']], ['A'], ['d']⟩]
      ⟨[0], [(0, some ['A'])], 1, none, none⟩).1 (by decide)⟩

/-- C8 counterexample: a block whose `answer:` line carries `E` is accepted
by `parse_questions`, so a produced record's correct label need not be one
of A, B, C, D — refuting the claim. -/
theorem c8_counterexample :
    parse_questions
        ("---START\n1: Q?\nA) 1\nB) 2\nC) 3\nD) 4\nAnswer: E\nDescription: d".toList)
      = [⟨"Q?".toList, [['1'], ['2'], ['3'], ['4']], ['E'], ['d']⟩]
    ∧ (['E'] : Str) ≠ ['A'] ∧ (['E'] : Str) ≠ ['B']
    ∧ (['E'] : Str) ≠ ['C'] ∧ (['E'] : Str) ≠ ['D'] := by
  decide

/-- C8 (amended): every record produced by `parse_questions` has a
non-empty correct label (the upper-cased trimmed text after `answer:`), but
the parser does not constrain it to the four letters A–D, nor to a position
within the options sequence. -/
theorem c8_correct_label_nonempty (text : Str) (q : Question)
    (hq : q ∈ parse_questions text) : q.correct ≠ [] := by
  by_cases ht : text = []
  · rw [ht] at hq
    simp [parse_questions] at hq
  · cases haf : afterFirst startMarker text with
    | none =>
      rw [parse_questions, if_neg ht, haf] at hq
      simp at hq
    | some c =>
      rw [parse_questions_of_some haf] at hq
      obtain ⟨b, hb, hpb⟩ := List.mem_filterMap.mp hq
      cases hbl : blockLines b with
      | nil =>
        rw [parseBlock, hbl] at hpb
        exact absurd hpb (by simp [parseBlockLines])
      | cons ql rest =>
        rw [parseBlock, hbl, parseBlockLines_cons] at hpb
        split at hpb
        · rename_i hcond
          cases hpb
          exact hcond.2.2.1
        · cases hpb

theorem c8_witness :
    (⟨"Q?".toList, [['1'], ['2'], ['3'], ['4']], ['B'], ['d']⟩ : Question).correct ≠ [] :=
  c8_correct_label_nonempty
    ("---START\n1: Q?\nA) 1\nB) 2\nC) 3\nD) 4\nAnswer: B\nDescription: d".toList)
    ⟨"Q?".toList, [['1'], ['2'], ['3'], ['4']], ['B'], ['d']⟩ (by decide)

/-- C9: `summary` leaves `quiz_indices`, `answers` and `current` unchanged;
its only session mutations are clearing `start_time` and storing the
computed `incorrect` list, and a repeated invocation on the resulting
session yields the same correct count, total, percentage and incorrect
list. -/
theorem c9_summary_frame_and_idempotent (bank : List Question) (s : QuizSession) :
    (summary bank s).1.quiz_indices = s.quiz_indices
    ∧ (summary bank s).1.answers = s.answers
    ∧ (summary bank s).1.current = s.current
    ∧ (summary bank s).1.start_time = none
    ∧ (summary bank s).1.incorrect = some (summary bank s).2.incorrect
    ∧ (summary bank ((summary bank s).1)).2 = (summary bank s).2 :=
  ⟨rfl, rfl, rfl, rfl, rfl, rfl⟩

/-- C10: within a block, when several lines begin with `answer:` (or
several with `description:`), the produced record carries the value of the
last such line — `lastAnsValue`/`lastDescValue` are the values of the last
matching lines, so earlier occurrences are overwritten, not rejected. -/
theorem c10_last_marker_line_wins (block qline : Str) (rest : List Str) (q : Question)
    (hb : blockLines block = qline :: rest)
    (hp : parseBlock block = some q) :
    q.correct = lastAnsValue rest ∧ q.description = lastDescValue rest := by
  rw [parseBlock, hb, parseBlockLines_cons] at hp
  split at hp
  · cases hp
    exact ⟨rfl, rfl⟩
  · cases hp

theorem c10_witness :
    (⟨"R?".toList, [['1'], ['2'], ['3'], ['4']], ['C'], "second".toList⟩ : Question).correct
        = lastAnsValue ["a) 1".toList, "b) 2".toList, "c) 3".toList, "d) 4".toList,
            "Answer: A".toList, "Answer: C".toList,
            "Description: first".toList, "Description: second".toList]
    ∧ (⟨"R?".toList, [['1'], ['2'], ['3'], ['4']], ['C'],
          "second".toList⟩ : Question).description
        = lastDescValue ["a) 1".toList, "b) 2".toList, "c) 3".toList, "d) 4".toList,
            "Answer: A".toList, "Answer: C".toList,
            "Description: first".toList, "Description: second".toList] :=
  c10_last_marker_line_wins
    ("1: R?\na) 1\nb) 2\nc) 3\nd) 4\nAnswer: A\nAnswer: C\nDescription: first\nDescription: second".toList)
    ("1: R?".toList)
    ["a) 1".toList, "b) 2".toList, "c) 3".toList, "d) 4".toList,
      "Answer: A".toList, "Answer: C".toList,
      "Description: first".toList, "Description: second".toList]
    ⟨"R?".toList, [['1'], ['2'], ['3'], ['4']], ['C'], "second".toList⟩
    (by decide) (by decide)

end Quiz
